import Mathlib

/-!
Verification of the energiya-prirody-parser crawl-and-extract pipeline.

The definitions below are a shallow embedding of the Python sources:
  src/core/client.py            (ParserClient)
  src/core/parsers/product.py   (ProductParser)
Machine-level details that the claims do not touch (logging, sleeping,
progress bars, actual file IO) are dropped; everything that decides a
claim (control flow, data flow, string manipulation) is translated
faithfully.
-/

namespace EPParser

/-! ### Records

`Product` models the record a completed fetch+extract of one URL yields,
as seen by the client orchestration code: it is identified by its
`original_url` and carries a `title` used to derive the dump filename
(src/core/types/product.py). -/

structure Product where
  original_url : String
  title : String
deriving DecidableEq, Repr

/-! ### Filename sanitization

`ParserClient._make_string_valid_for_path` (src/core/client.py lines
104-131): a translate table maps backslash and forward slash to a dash,
deletes single quote, double quote, angle brackets, asterisk, question
mark, comma and period, and the result is stripped of surrounding
whitespace. -/

def translateChar (c : Char) : Option Char :=
  if c = '\\' then some '-'
  else if c = '/' then some '-'
  else if c = '\'' then none
  else if c = '"' then none
  else if c = '<' then none
  else if c = '>' then none
  else if c = '*' then none
  else if c = '?' then none
  else if c = ',' then none
  else if c = '.' then none
  else some c

/-- Python str.strip: drop whitespace from both ends. -/
def pyStrip (l : List Char) : List Char :=
  ((l.dropWhile Char.isWhitespace).reverse.dropWhile Char.isWhitespace).reverse

def pyStripStr (s : String) : String :=
  ⟨pyStrip s.data⟩

def makeStringValidForPath (s : String) : String :=
  ⟨pyStrip (s.data.filterMap translateChar)⟩

/-- Characters the sanitizer must eliminate. -/
def pathBadChars : List Char :=
  ['\\', '/', '\'', '"', '<', '>', '*', '?', ',', '.']

/-! ### Decimal rendering and the ordinal filename part

`_dump_all_products_in_json` (src/core/client.py lines 180-200) builds
the filename as the Python f-string of the 1-based index formatted with
the spec `^2` (centered in a field of width 2), a dash, the sanitized
title, and the `.json` extension. `pyStrAux` renders a natural number in
decimal exactly as Python str does; `pyCenterTwo` is the `^2` format
(width 2, space fill, the extra space going to the right). -/

def pyStrAux : Nat → Nat → List Char → List Char
  | 0, _, acc => acc
  | fuel + 1, n, acc =>
    if n < 10 then Nat.digitChar n :: acc
    else pyStrAux fuel (n / 10) (Nat.digitChar (n % 10) :: acc)

/-- Decimal digit list of a natural number, most significant first;
the fuel `n + 1` always suffices (`pyStrAux_fuel`). -/
def pyDigits (n : Nat) : List Char :=
  pyStrAux (n + 1) n []

def pyStr (n : Nat) : String :=
  ⟨pyDigits n⟩

def pyCenterTwo (l : List Char) : List Char :=
  if 2 ≤ l.length then l
  else if l.length = 1 then l ++ [' ']
  else [' ', ' ']

/-- The ordinal part of a dump filename: f-string piece of the pattern,
the index centered in a width-2 field followed by a dash. -/
def ordinalPart (i : Nat) : List Char :=
  pyCenterTwo (pyDigits i) ++ ['-']

/-- Filename of a dumped product given its 1-based position in the
record list (`_dump_product_in_json`, src/core/client.py lines
149-178). -/
def dumpFilename (i : Nat) (title : String) : String :=
  String.mk (ordinalPart i) ++ makeStringValidForPath title ++ "." ++ "json"

/-- Filenames produced by `_dump_all_products_in_json` for a record
list, in order (`enumerate(products, start=1)`). -/
def dumpAllFilenames (products : List Product) : List String :=
  products.mapIdx (fun idx p => dumpFilename (idx + 1) p.title)

/-! ### The work dispatcher (`ParserClient.dump_products`)

src/core/client.py lines 407-525.  The embedding abstracts the outside
world into three deterministic oracles:
  * `crawl`      - `_get_products_links`: listing URL to product links;
  * `fetch`      - `_get_product`: product URL to its Record;
  * `prepareDir` - `_prepare_dir_for_products`: (url, optional dir name)
                   to the products dump directory.
A batch-fatal error surfacing while the result iterator is drained is
injected by a schedule: each invocation of `dump_products` consumes one
entry, `some k` meaning the iteration blows up after `k` products were
appended, `none` (or an exhausted schedule) meaning no failure. -/

/-- Model of `_fetch_products_with_single_requests` (lines 390-405): a generator
running `_get_product` over the links; draining it yields the records in
link order. -/
def fetchProductsWithSingleRequests (fetch : String → Product) (links : List String) :
    List Product :=
  links.map fetch

/-- Model of `_fetch_products_with_thread_pool_executor` (lines 341-371):
`executor.map` yields results in the order of the input links, and the
`with` block joins all workers before the iterator is returned. -/
def fetchProductsWithThreadPoolExecutor (fetch : String → Product) (links : List String) :
    List Product :=
  links.map fetch

/-- Model of the Python truthiness test on max workers at line 473:
the values `None`,
`0` and `1` select the sequential generator path. -/
def isSequentialMode (maxWorkers : Option Nat) : Bool :=
  match maxWorkers with
  | none => true
  | some w => w == 0 || w == 1

def iterResults (maxWorkers : Option Nat) (fetch : String → Product)
    (links : List String) : List Product :=
  if isSequentialMode maxWorkers then fetchProductsWithSingleRequests fetch links
  else fetchProductsWithThreadPoolExecutor fetch links

/-- Model of the set difference of links minus handled links
(lines 493-494): Python set semantics,
duplicates collapsed and membership in `handled` removed (the iteration
order of a Python set is unspecified; `List.dedup` keeps the last
occurrence of each element). -/
def pySetDiff (links handled : List String) : List String :=
  links.dedup.filter (fun l => decide (l ∉ handled))

/-- Result of a single `dump_products` invocation: the raised
`ValueError`, successful completion (dump dir, dumped records), or the
batch-fatal path re-invoking itself with the captured snapshot. -/
inductive StepResult where
  | valueError : StepResult
  | success : String → List Product → StepResult
  | broken : String → List String → List Product → StepResult
deriving DecidableEq, Repr

/-- The try/for/except core of `dump_products` (lines 479-502): drain
the iterator appending records; on an error after `k` appends, compute
the unhandled remainder and hand back the resumption snapshot. -/
def runCollect (fetch : String → Product) (maxWorkers : Option Nat)
    (dir : String) (links : List String) (products : List Product)
    (failAfter : Option Nat) : StepResult :=
  let results := iterResults maxWorkers fetch links
  match failAfter with
  | none => .success dir (products ++ results)
  | some k =>
    if k < links.length then
      let collected := products ++ results.take k
      let handled := collected.map Product.original_url
      .broken dir (pySetDiff links handled) collected
    else
      .success dir (products ++ results)

/-- One invocation of `dump_products` (lines 450-502): the truthiness
test on `prepared_products_from_broken_invocation` picks the resumption
branch, whose contract check raises `ValueError` when the dump dir is
`None` or the left links are `None` or empty (both falsy); the fresh
branch derives the dump dir and crawls the listing. -/
def dumpStep (crawl : String → List String) (fetch : String → Product)
    (prepareDir : String → Option String → String)
    (url : String) (dirName : Option String) (maxWorkers : Option Nat)
    (dirBroken : Option String) (leftLinks : Option (List String))
    (prepared : Option (List Product)) (failAfter : Option Nat) : StepResult :=
  let preparedList := prepared.getD []
  if preparedList.isEmpty then
    runCollect fetch maxWorkers (prepareDir url dirName) (crawl url) [] failAfter
  else
    match dirBroken, leftLinks with
    | some d, some ll =>
      if ll.isEmpty then .valueError
      else runCollect fetch maxWorkers d ll preparedList failAfter
    | some _, none => .valueError
    | none, _ => .valueError

/-- Outcome of a `dump_products` call including its recursive
re-invocations. -/
inductive DumpOutcome where
  | valueError : DumpOutcome
  | success : String → List Product → DumpOutcome
deriving DecidableEq, Repr

/-- Model of `dump_products` with its batch-fatal self-recursion (lines 496-502):
the re-invocation passes the same url, no dir name, the same
`max_workers`, and the snapshot triple. Each invocation consumes one
schedule entry; an exhausted schedule injects no failure (in which case
the step cannot break, the catch-all branch is dead code). -/
def dumpProducts (crawl : String → List String) (fetch : String → Product)
    (prepareDir : String → Option String → String)
    (url : String) (dirName : Option String) (maxWorkers : Option Nat)
    (dirBroken : Option String) (leftLinks : Option (List String))
    (prepared : Option (List Product))
    (schedule : List (Option Nat)) : DumpOutcome :=
  match schedule with
  | [] =>
    match dumpStep crawl fetch prepareDir url dirName maxWorkers dirBroken leftLinks prepared none with
    | .valueError => .valueError
    | .success d ps => .success d ps
    | .broken d _ ps => .success d ps
  | f :: rest =>
    match dumpStep crawl fetch prepareDir url dirName maxWorkers dirBroken leftLinks prepared f with
    | .valueError => .valueError
    | .success d ps => .success d ps
    | .broken d ll ps =>
      dumpProducts crawl fetch prepareDir url none maxWorkers (some d) (some ll) (some ps) rest

/-! ### Pagination (`ParserClient._get_products_links`)

src/core/client.py lines 202-272. The network is abstracted into a
deterministic oracle from the requested URL to either the page response
(length of the redirect history, and the product links the assortment
parser extracts from the body) or a transient network error. The
`while` loop is given fuel; `none` means the fuel ran out. On a network
error the source re-enters itself recursively, passing the local `url`
variable - which at that point holds the page URL, not the original
listing URL - and thereby restarts with a fresh accumulator. -/

inductive FetchOutcome where
  | ok : Nat → List String → FetchOutcome
  | netError : FetchOutcome
deriving DecidableEq, Repr

/-- Lines 218-221: ensure the URL pattern ends with a slash
(Python `url.endswith` of the one-character suffix: the last character
is a slash). -/
def ensureTrailingSlash (u : String) : String :=
  if u.data.getLast? = some '/' then u else u ++ "/"

/-- Line 227: the page URL appends page_ and the page number to the
URL pattern. -/
def pageUrl (pat : String) (n : Nat) : String :=
  pat ++ "page_" ++ pyStr n

def getProductsLinksAux (fetch : String → FetchOutcome) :
    Nat → String → Nat → List String → Option (List String)
  | 0, _, _, _ => none
  | fuel + 1, pat, pageNumber, acc =>
    let u := pageUrl pat pageNumber
    match fetch u with
    | .netError =>
      -- line 240: return self._get_products_links(url) - with url already
      -- rebound to the page URL; the fresh call re-derives its pattern and
      -- starts over at page 1 with an empty accumulator
      getProductsLinksAux fetch fuel (ensureTrailingSlash u) 1 []
    | .ok historyLen links =>
      if 1 < historyLen then some acc
      else getProductsLinksAux fetch fuel pat (pageNumber + 1) (acc ++ links)

def getProductsLinks (fetch : String → FetchOutcome) (fuel : Nat) (url : String) :
    Option (List String) :=
  getProductsLinksAux fetch fuel (ensureTrailingSlash url) 1 []

/-- A listing whose page 2 exists but yields zero links, page 3 yields a
link, and page 4 redirects back to page 1. -/
def pagesWithEmptyPage : String → FetchOutcome := fun u =>
  if u = "u/page_1" then .ok 0 ["a"]
  else if u = "u/page_2" then .ok 0 []
  else if u = "u/page_3" then .ok 0 ["b"]
  else .ok 2 []

/-- A two-page listing followed by a redirect (which carries junk links
that must not be collected). -/
def pagesTwoThenRedirect : String → FetchOutcome := fun u =>
  if u = "w/page_1" then .ok 1 ["x"]
  else if u = "w/page_2" then .ok 0 ["y"]
  else .ok 5 ["z"]

/-- A listing whose page 2 fetch hits a transient network error; the
retry (which the source performs with the page URL as the new base)
then sees a redirect at `v/page_2/page_1`. -/
def pagesWithNetErrorAtTwo : String → FetchOutcome := fun u =>
  if u = "v/page_1" then .ok 0 ["a"]
  else if u = "v/page_2" then .netError
  else .ok 2 []

/-- The same listing without the transient error: page 2 redirects. -/
def pagesNoError : String → FetchOutcome := fun u =>
  if u = "v/page_1" then .ok 0 ["a"]
  else .ok 2 []

/-! ### HTML trees and the product extractor (`ProductParser`)

src/core/parsers/product.py. BeautifulSoup is embedded as a rose tree
of element and text nodes; `find`/`find_all` search the descendants in
document (preorder) order, `.text` concatenates the descendant strings,
attribute access is lookup in the attribute list. A bs4 class query
matches any of the whitespace-separated class tokens. -/

inductive HNode where
  | elem : String → List (String × String) → List HNode → HNode
  | textNode : String → HNode

def getAttr (attrs : List (String × String)) (k : String) : Option String :=
  (attrs.find? (fun p => p.1 == k)).map Prod.snd

def attrOf (n : HNode) (k : String) : Option String :=
  match n with
  | .elem _ attrs _ => getAttr attrs k
  | .textNode _ => none

/-- Python truthiness filter `if link.get(attr)`: present and
non-empty. -/
def truthyAttr (n : HNode) (k : String) : Option String :=
  match attrOf n k with
  | some s => if s = "" then none else some s
  | none => none

def hasClass (n : HNode) (c : String) : Bool :=
  match attrOf n "class" with
  | some v => ((v.data.splitOn ' ').map (fun l => String.mk l)).contains c
  | none => false

def tagNameIs (n : HNode) (t : String) : Bool :=
  match n with
  | .elem tag _ _ => tag == t
  | .textNode _ => false

def isTag (t : String) (n : HNode) : Bool :=
  tagNameIs n t

def isTagClass (t c : String) (n : HNode) : Bool :=
  tagNameIs n t && hasClass n c

mutual

/-- Descendants of a node in document order (the node itself
excluded, matching bs4 `find`/`find_all` on a tag). -/
def descendantsNode : HNode → List HNode
  | .textNode _ => []
  | .elem _ _ cs => descendantsList cs

def descendantsList : List HNode → List HNode
  | [] => []
  | c :: cs => c :: (descendantsNode c ++ descendantsList cs)

end

def findFirstIn (p : HNode → Bool) (root : HNode) : Option HNode :=
  (descendantsNode root).find? p

def findAllIn (p : HNode → Bool) (root : HNode) : List HNode :=
  (descendantsNode root).filter p

mutual

/-- bs4 `.text`: concatenation of all descendant strings. -/
def textOfNode : HNode → String
  | .textNode s => s
  | .elem _ _ cs => textOfList cs

def textOfList : List HNode → String
  | [] => ""
  | c :: cs => textOfNode c ++ textOfList cs

end

def childrenOf : HNode → List HNode
  | .elem _ _ cs => cs
  | .textNode _ => []

def internalLinkStart : String :=
  "https://energiya-prirody.prom.ua/"

mutual

/-- Model of `_replace_internal_links_with_links_text` applied inside the user
content section (lines 192-199): every `a` tag whose `href` starts with
the site homepage is replaced by its text; an `a` tag without `href`
makes the constructor blow up (`None.startswith`), modeled as `none`. -/
def replaceANode : HNode → Option HNode
  | .textNode s => some (.textNode s)
  | .elem t a cs =>
    if t == "a" then
      match getAttr a "href" with
      | none => none
      | some h =>
        if h.startsWith internalLinkStart then some (.textNode (textOfList cs))
        else (replaceAList cs).map (fun cs2 => .elem t a cs2)
    else (replaceAList cs).map (fun cs2 => .elem t a cs2)

def replaceAList : List HNode → Option (List HNode)
  | [] => some []
  | c :: cs =>
    match replaceANode c with
    | none => none
    | some c2 =>
      match replaceAList cs with
      | none => none
      | some cs2 => some (c2 :: cs2)

end

mutual

/-- Locate the first `div.b-user-content` in document order and rewrite
its internal links; the Bool flag records whether the section has been
handled already. -/
def rlNode (found : Bool) : HNode → Option (HNode × Bool)
  | .textNode s => some (.textNode s, found)
  | .elem t a cs =>
    if !found && isTagClass "div" "b-user-content" (.elem t a cs) then
      match replaceAList cs with
      | none => none
      | some cs2 => some (.elem t a cs2, true)
    else
      match rlList found cs with
      | none => none
      | some (cs2, f2) => some (.elem t a cs2, f2)

def rlList (found : Bool) : List HNode → Option (List HNode × Bool)
  | [] => some ([], found)
  | c :: cs =>
    match rlNode found c with
    | none => none
    | some (c2, f2) =>
      match rlList f2 cs with
      | none => none
      | some (cs2, f3) => some (c2 :: cs2, f3)

end

/-- External pure capabilities the extractor delegates to:
`unicodedata.normalize` under the NFKD form (wrapping `price`) and bs4
`prettify` (serializing the user content section). -/
structure ExtractorEnv where
  norm : String → String
  prettify : HNode → String

/-- A constructed `ProductParser`: the original URL and the soup after
`_replace_internal_links_with_links_text` has mutated it. -/
structure ProductParserS where
  original_url : String
  soup : HNode

/-- Model of the `ProductParser` constructor (lines 28-37): parse the markup (the parsed
tree `doc` is the input here) and rewrite internal links inside the user
content section; a missing section or an `a` without `href` raises out
of the constructor, modeled as `none`. -/
def mkProductParser (url : String) (doc : HNode) : Option ProductParserS :=
  match findFirstIn (isTagClass "div" "b-user-content") doc with
  | none => none
  | some _ =>
    match rlNode false doc with
    | none => none
    | some (d, _) => some ⟨url, d⟩

/-- JSON values as produced for the record dump. -/
inductive JVal where
  | null : JVal
  | str : String → JVal
  | arr : List JVal → JVal
  | obj : List (String × JVal) → JVal

/-- Model of the `title` property (line 107), the text of the first h1; no `h1` raises
(`none`). -/
def titleA (p : ProductParserS) : Option String :=
  (findFirstIn (isTag "h1") p.soup).map textOfNode

/-- Model of the `price` property (lines 111-122) together with its
`normalize_unicode_string` decorator: the decorator stringifies the raw
result - turning an absent price into the string None - and
normalizes it. -/
def priceA (env : ExtractorEnv) (p : ProductParserS) : String :=
  let raw :=
    match findFirstIn (isTagClass "p" "b-product-cost__price") p.soup with
    | some t => pyStripStr (textOfNode t)
    | none => "None"
  env.norm raw

/-- Model of the `image_link` property (lines 124-129): outer `none` is the
AttributeError when the `img` tag is absent; inner `none` is a present
tag without `src`. -/
def imageLinkA (p : ProductParserS) : Option (Option String) :=
  (findFirstIn (isTagClass "img" "b-product-view__image") p.soup).map
    (fun t => attrOf t "src")

/-- Model of the `extra_images_links` property (lines 131-138). -/
def extraImagesLinksA (p : ProductParserS) : Option (List String) :=
  (findFirstIn (isTagClass "div" "b-extra-photos") p.soup).map
    (fun c => (findAllIn (isTagClass "a" "b-extra-photos__item") c).filterMap
      (fun l => truthyAttr l "href"))

/-- Model of the `_user_content_section` property (lines 155-160). -/
def ucSectionA (p : ProductParserS) : Option HNode :=
  findFirstIn (isTagClass "div" "b-user-content") p.soup

/-- Model of the `user_content_images_links` property (lines 140-146). -/
def ucImagesLinksA (p : ProductParserS) : Option (List String) :=
  (ucSectionA p).map
    (fun s => (findAllIn (isTag "img") s).filterMap (fun i => truthyAttr i "src"))

/-- Model of `all_images_links` (line 151), the set-deduplicated
concatenation of the main, extra and user-content image links:
`none` when any of the three properties raises; the set collapses
duplicates (a Python set iterates in unspecified order; `List.dedup`
keeps the last occurrence of each element). -/
def allImagesLinksA (p : ProductParserS) : Option (List (Option String)) :=
  match imageLinkA p, extraImagesLinksA p, ucImagesLinksA p with
  | some img, some ex, some uc => some ((img :: (ex.map some ++ uc.map some)).dedup)
  | _, _, _ => none

def userContentHtmlA (env : ExtractorEnv) (p : ProductParserS) : String :=
  match ucSectionA p with
  | some s => env.prettify s
  | none => ""

def userContentTextA (p : ProductParserS) : String :=
  match ucSectionA p with
  | some s => textOfNode s
  | none => ""

/-- Python dict insertion: overwrite in place or append. -/
def upsert {K V : Type} [BEq K] (d : List (K × V)) (k : K) (v : V) : List (K × V) :=
  if d.any (fun p => p.1 == k) then
    d.map (fun p => if p.1 == k then (k, v) else p)
  else d ++ [(k, v)]

/-- Row loop of `_parse_table` (lines 59-93): a lone `th` child starts a
new category (flushing the previous one), a pair of `td` children adds a
key/value to the current category, anything else is skipped; the final
category is flushed unconditionally - with a None key when no `th` ever
occurred. -/
def parseTableGo :
    List HNode → List (Option String × List (String × String)) →
    Option String → List (String × String) →
    List (Option String × List (String × String))
  | [], info, cat, catInfo => upsert info cat catInfo
  | r :: rs, info, cat, catInfo =>
    match childrenOf r with
    | [tag] =>
      if tagNameIs tag "th" then
        match cat with
        | some c =>
          parseTableGo rs (upsert info (some c) catInfo)
            (some (pyStripStr (textOfNode tag))) []
        | none =>
          parseTableGo rs info (some (pyStripStr (textOfNode tag))) []
      else parseTableGo rs info cat catInfo
    | [t1, t2] =>
      if tagNameIs t1 "td" && tagNameIs t2 "td" then
        parseTableGo rs info cat
          (upsert catInfo (pyStripStr (textOfNode t1)) (pyStripStr (textOfNode t2)))
      else parseTableGo rs info cat catInfo
    | _ => parseTableGo rs info cat catInfo

/-- Model of `_parse_table` (lines 42-95): an empty dict for a missing
table. -/
def parseTable (table : Option HNode) :
    List (Option String × List (String × String)) :=
  match table with
  | none => []
  | some t => parseTableGo (findAllIn (isTag "tr") t) [] none []

/-- Model of the `characteristics` property (lines 176-182). -/
def characteristicsA (p : ProductParserS) :
    List (Option String × List (String × String)) :=
  parseTable (findFirstIn (isTagClass "table" "b-product-info") p.soup)

/-- Model of the `specification_links` property (lines 184-190): no truthiness
filter here, a missing `href` contributes a JSON null. -/
def specLinksA (p : ProductParserS) : List JVal :=
  (findAllIn (isTagClass "a" "b-spec-list__link") p.soup).map
    (fun l =>
      match attrOf l "href" with
      | some h => JVal.str h
      | none => JVal.null)

def optStrToJVal : Option String → JVal
  | some s => JVal.str s
  | none => JVal.null

def charsToJVal (cs : List (Option String × List (String × String))) : JVal :=
  JVal.obj (cs.map (fun p =>
    (match p.1 with
     | some k => k
     | none => "null",
     JVal.obj (p.2.map (fun q => (q.1, JVal.str q.2))))))

/-- Model of `ProductParser.get_data` (lines 201-249): the attribute table in
source order; an attribute whose property raised is stored as null. -/
def getData (env : ExtractorEnv) (p : ProductParserS) : List (String × JVal) :=
  [ ("original_url", JVal.str p.original_url),
    ("title", match titleA p with
              | some t => JVal.str t
              | none => JVal.null),
    ("price", JVal.str (priceA env p)),
    ("image", match imageLinkA p with
              | some v => optStrToJVal v
              | none => JVal.null),
    ("extra_images", match extraImagesLinksA p with
                     | some ls => JVal.arr (ls.map JVal.str)
                     | none => JVal.null),
    ("user_content_images", match ucImagesLinksA p with
                            | some ls => JVal.arr (ls.map JVal.str)
                            | none => JVal.null),
    ("all_images", match allImagesLinksA p with
                   | some ls => JVal.arr (ls.map optStrToJVal)
                   | none => JVal.null),
    ("user_content_html", JVal.str (userContentHtmlA env p)),
    ("user_content_text", JVal.str (userContentTextA p)),
    ("characteristics", charsToJVal (characteristicsA p)),
    ("specification_links", JVal.arr (specLinksA p)) ]

/-- An extractor environment with identity normalization and a trivial
serializer. -/
def envTrivial : ExtractorEnv :=
  ⟨fun s => s, fun _ => ""⟩

/-- A parser over an empty document. -/
def parserTrivial : ProductParserS :=
  ⟨"u", .elem "html" [] []⟩

/-- A document carrying a main image, two extra photos (one repeating
the main image URL) and a user-content image. -/
def docImages : HNode :=
  .elem "[document]" []
    [ .elem "img" [("class", "b-product-view__image"), ("src", "m.jpg")] [],
      .elem "div" [("class", "b-extra-photos")]
        [ .elem "a" [("class", "b-extra-photos__item"), ("href", "e1.jpg")] [],
          .elem "a" [("class", "b-extra-photos__item"), ("href", "m.jpg")] [] ],
      .elem "div" [("class", "b-user-content")]
        [ .elem "img" [("src", "u1.jpg")] [] ] ]

def parserImages : ProductParserS :=
  ⟨"u", docImages⟩

/-- A minimal document owning a user content section, on which the
`ProductParser` constructor succeeds. -/
def docWithSection : HNode :=
  .elem "[document]" [] [.elem "div" [("class", "b-user-content")] []]

def parserFromSection : ProductParserS :=
  match mkProductParser "u" docWithSection with
  | some p => p
  | none => ⟨"", .textNode ""⟩

/-! ## Supporting lemmas -/

lemma pyStrAux_fuel : ∀ f1 n acc, n < f1 → ∀ f2, n < f2 →
    pyStrAux f1 n acc = pyStrAux f2 n acc := by
  intro f1
  induction f1 with
  | zero => omega
  | succ a ih =>
    intro n acc h1 f2 h2
    cases f2 with
    | zero => omega
    | succ b =>
      by_cases h : n < 10
      · simp [pyStrAux, h]
      · simp only [pyStrAux, h, if_false]
        exact ih (n / 10) _ (by omega) b (by omega)

lemma pyStrAux_acc : ∀ f n acc, n < f →
    pyStrAux f n acc = pyStrAux f n [] ++ acc := by
  intro f
  induction f with
  | zero => omega
  | succ a ih =>
    intro n acc h1
    by_cases h : n < 10
    · simp [pyStrAux, h]
    · simp only [pyStrAux, h, if_false]
      rw [ih (n / 10) _ (by omega), ih (n / 10) [Nat.digitChar (n % 10)] (by omega)]
      simp

lemma pyDigits_lt {n : Nat} (h : n < 10) : pyDigits n = [Nat.digitChar n] := by
  simp [pyDigits, pyStrAux, h]

lemma pyDigits_ge {n : Nat} (h : ¬ n < 10) :
    pyDigits n = pyDigits (n / 10) ++ [Nat.digitChar (n % 10)] := by
  unfold pyDigits
  conv_lhs => rw [pyStrAux]
  rw [if_neg h]
  rw [pyStrAux_fuel n (n / 10) _ (by omega) (n / 10 + 1) (by omega)]
  rw [pyStrAux_acc (n / 10 + 1) (n / 10) _ (by omega)]

/-- Reading a decimal digit list back as a number, inverse to
`pyStrAux`. -/
def parseStep (a : Nat) (c : Char) : Nat := 10 * a + (c.toNat - 48)

lemma digitChar_val (n : Nat) (h : n < 10) : (Nat.digitChar n).toNat - 48 = n := by
  interval_cases n <;> decide

lemma parse_pyDigits (n : Nat) : List.foldl parseStep 0 (pyDigits n) = n := by
  induction n using Nat.strong_induction_on with
  | _ n ih =>
    by_cases h : n < 10
    · rw [pyDigits_lt h]
      simp [parseStep, digitChar_val n h]
    · rw [pyDigits_ge h, List.foldl_append]
      rw [ih (n / 10) (Nat.div_lt_self (by omega) (by omega))]
      simp [parseStep, digitChar_val (n % 10) (by omega)]
      omega

lemma pyDigits_inj {n m : Nat} (h : pyDigits n = pyDigits m) : n = m := by
  have h2 := congrArg (List.foldl parseStep 0) h
  rwa [parse_pyDigits, parse_pyDigits] at h2

lemma digitChar_isDigit (n : Nat) (h : n < 10) : (Nat.digitChar n).isDigit = true := by
  interval_cases n <;> decide

lemma pyDigits_isDigit (n : Nat) : ∀ c ∈ pyDigits n, c.isDigit = true := by
  induction n using Nat.strong_induction_on with
  | _ n ih =>
    by_cases h : n < 10
    · rw [pyDigits_lt h]
      intro c hc
      simp at hc
      subst hc
      exact digitChar_isDigit n h
    · rw [pyDigits_ge h]
      intro c hc
      rcases List.mem_append.1 hc with h1 | h1
      · exact ih (n / 10) (Nat.div_lt_self (by omega) (by omega)) c h1
      · simp at h1
        subst h1
        exact digitChar_isDigit (n % 10) (by omega)

lemma pyDigits_ne_nil (n : Nat) : pyDigits n ≠ [] := by
  by_cases h : n < 10
  · rw [pyDigits_lt h]
    simp
  · rw [pyDigits_ge h]
    simp

lemma pyCenterTwo_inj {a b : List Char}
    (ha : ∀ c ∈ a, c.isDigit = true) (hb : ∀ c ∈ b, c.isDigit = true)
    (ha0 : a ≠ []) (hb0 : b ≠ [])
    (h : pyCenterTwo a = pyCenterTwo b) : a = b := by
  have ha1 : 1 ≤ a.length := by
    cases a with
    | nil => exact absurd rfl ha0
    | cons x xs => simp
  have hb1 : 1 ≤ b.length := by
    cases b with
    | nil => exact absurd rfl hb0
    | cons x xs => simp
  unfold pyCenterTwo at h
  by_cases h2a : 2 ≤ a.length <;> by_cases h2b : 2 ≤ b.length
  · rwa [if_pos h2a, if_pos h2b] at h
  · rw [if_pos h2a, if_neg h2b, if_pos (by omega)] at h
    exfalso
    have hsp : ' ' ∈ a := by
      rw [h]
      simp
    have := ha ' ' hsp
    simp at this
  · rw [if_neg h2a, if_pos (by omega), if_pos h2b] at h
    exfalso
    have hsp : ' ' ∈ b := by
      rw [← h]
      simp
    have := hb ' ' hsp
    simp at this
  · rw [if_neg h2a, if_pos (by omega), if_neg h2b, if_pos (by omega)] at h
    exact List.append_cancel_right h

lemma ordinalPart_inj {i j : Nat} (h : ordinalPart i = ordinalPart j) : i = j := by
  unfold ordinalPart at h
  have h2 := List.append_cancel_right h
  exact pyDigits_inj (pyCenterTwo_inj (pyDigits_isDigit i) (pyDigits_isDigit j)
    (pyDigits_ne_nil i) (pyDigits_ne_nil j) h2)

lemma dumpFilename_inj_pos {i j : Nat} {t : String}
    (h : dumpFilename i t = dumpFilename j t) : i = j := by
  unfold dumpFilename at h
  have hd := congrArg String.data h
  simp only [String.data_append, List.append_assoc] at hd
  have hd2 : ordinalPart i ++ ((makeStringValidForPath t).data ++ (".".data ++ "json".data))
      = ordinalPart j ++ ((makeStringValidForPath t).data ++ (".".data ++ "json".data)) := hd
  have hlen : (ordinalPart i).length = (ordinalPart j).length := by
    have := congrArg List.length hd2
    simp only [List.length_append] at this
    omega
  exact ordinalPart_inj (List.append_inj_left hd2 hlen)

lemma mem_pyStrip {c : Char} {l : List Char} (h : c ∈ pyStrip l) : c ∈ l := by
  unfold pyStrip at h
  rw [List.mem_reverse] at h
  have h2 := (List.dropWhile_sublist _).mem h
  rw [List.mem_reverse] at h2
  exact (List.dropWhile_sublist _).mem h2

lemma translateChar_not_bad {a c : Char} (h : translateChar a = some c) :
    c ∉ pathBadChars := by
  unfold translateChar at h
  split_ifs at h with h1 h2 h3 h4 h5 h6 h7 h8 h9 h10 <;>
    simp only [Option.some.injEq] at h <;> subst h <;> simp_all [pathBadChars]

/-! ## Claims -/

/-- C8: for every input string, `_make_string_valid_for_path` returns a
string containing none of backslash, forward slash, single quote,
double quote, angle brackets, asterisk, question mark, comma, period
(backslash and forward slash are translated to a dash, the other listed
characters are deleted, and surrounding whitespace is stripped - the
translation table and strip are the definitions of `translateChar` and
`pyStrip`). -/
theorem sanitize_removes_path_unsafe_chars (s : String) :
    ∀ c ∈ (makeStringValidForPath s).data, c ∉ pathBadChars := by
  intro c hc
  have h1 : c ∈ s.data.filterMap translateChar := mem_pyStrip hc
  rw [List.mem_filterMap] at h1
  obtain ⟨a, _, ha⟩ := h1
  exact translateChar_not_bad ha

/-- C8 witness: a concrete sanitized string and a concrete member of
it. -/
theorem sanitize_removes_path_unsafe_chars_wit : 'a' ∉ pathBadChars :=
  sanitize_removes_path_unsafe_chars " a.b/c " 'a' (by decide)

/-- C4 counterexample: the ordinal is formatted with the Python spec
`^2` (centered, space fill), not zero-padded, so the two files of a
two-record list are named `1 -...` and `2 -...`, not `01-...` and
`02-...`. -/
theorem ordinal_not_zero_padded_cex :
    dumpAllFilenames [⟨"u1", "alpha"⟩, ⟨"u2", "beta"⟩]
      = ["1 -alpha.json", "2 -beta.json"]
    ∧ dumpAllFilenames [⟨"u1", "alpha"⟩, ⟨"u2", "beta"⟩]
      ≠ ["01-alpha.json", "02-beta.json"] := by
  constructor
  · decide
  · decide

/-- C4 amended: for every record list, the file dumped for the record
at 1-based position i is named with the position rendered in decimal,
centered in a width-2 space-filled field, followed by a dash, the
sanitized title and the json extension; records at distinct positions
never collide even when their titles are identical. -/
theorem ordinal_filename_centered (ps : List Product) (i j : Nat) (t : String)
    (hi : i < ps.length) (hi2 : i < (dumpAllFilenames ps).length) (hij : i ≠ j) :
    (dumpAllFilenames ps).get ⟨i, hi2⟩ = dumpFilename (i + 1) (ps.get ⟨i, hi⟩).title
    ∧ dumpFilename (i + 1) t ≠ dumpFilename (j + 1) t := by
  constructor
  · exact List.get_mapIdx ps (fun idx p => dumpFilename (idx + 1) p.title) i hi hi2
  · intro h
    have := dumpFilename_inj_pos h
    omega

/-- C4 witness: two records with the same title at positions 1 and 2
get the names the amended claim predicts, and those names differ. -/
theorem ordinal_filename_centered_wit :
    (dumpAllFilenames [⟨"u", "x"⟩, ⟨"v", "x"⟩]).get ⟨0, by decide⟩
      = dumpFilename 1 "x"
    ∧ dumpFilename 1 "x" ≠ dumpFilename 2 "x" :=
  ordinal_filename_centered [⟨"u", "x"⟩, ⟨"v", "x"⟩] 0 1 "x"
    (by decide) (by decide) (by decide)

lemma getProductsLinksAux_pages (fetch : String → FetchOutcome) (pat : String) :
    ∀ (PL : List (List String)) (p fuel : Nat) (acc : List String),
      (∀ i, i < PL.length → ∃ h, h ≤ 1 ∧ fetch (pageUrl pat (p + i)) = .ok h (PL.getD i []))
      → (∃ h ls, 1 < h ∧ fetch (pageUrl pat (p + PL.length)) = .ok h ls)
      → PL.length < fuel
      → getProductsLinksAux fetch fuel pat p acc = some (acc ++ PL.flatten) := by
  intro PL
  induction PL with
  | nil =>
    intro p fuel acc hok hred hfuel
    cases fuel with
    | zero => omega
    | succ f =>
      obtain ⟨h, ls, h1, h2⟩ := hred
      simp only [List.length_nil, Nat.add_zero] at h2
      simp only [getProductsLinksAux]
      rw [h2]
      simp [h1]
  | cons L rest ih =>
    intro p fuel acc hok hred hfuel
    cases fuel with
    | zero => omega
    | succ f =>
      obtain ⟨h, hle, hfetch⟩ := hok 0 (by simp)
      simp only [Nat.add_zero, List.getD_cons_zero] at hfetch
      simp only [getProductsLinksAux]
      rw [hfetch]
      have hnr : ¬ 1 < h := by omega
      simp only [hnr, if_false]
      rw [ih (p + 1) f (acc ++ L) ?hoknext ?hrednext (by simp at hfuel; omega)]
      · simp
      case hoknext =>
        intro i hi
        have := hok (i + 1) (by simp; omega)
        simpa [Nat.add_comm, Nat.add_assoc, Nat.add_left_comm] using this
      case hrednext =>
        obtain ⟨h2, ls2, hgt, hf2⟩ := hred
        refine ⟨h2, ls2, hgt, ?_⟩
        have he : p + (L :: rest).length = p + 1 + rest.length := by
          simp
          omega
        rwa [he] at hf2

/-- C2 counterexample: a page that yields zero extra links does NOT
stop pagination - with page 1 yielding a, page 2 yielding nothing,
page 3 yielding b and page 4 redirecting, the loop keeps going past
page 2 and returns the links of pages 1 and 3; under the claim the run
would have stopped at page 2 and returned only a. -/
theorem pagination_zero_link_page_cex :
    getProductsLinks pagesWithEmptyPage 10 "u" = some ["a", "b"]
    ∧ getProductsLinks pagesWithEmptyPage 10 "u" ≠ some ["a"] := by
  constructor
  · decide
  · decide

/-- C2 amended: `_get_products_links` fetches pages 1, 2, 3, ... by
appending `page_N` to the slash-terminated URL pattern and stops exactly
when a response's redirect history is longer than 1 (the
redirected-back-to-page-1 signal); pages yielding zero links do not
stop the loop; the result is the concatenation of the links of all
pages fetched before the redirect, and only those. -/
theorem pagination_stops_only_on_redirect (fetch : String → FetchOutcome)
    (url : String) (PL : List (List String)) (fuel : Nat)
    (hok : ∀ i, i < PL.length → ∃ h, h ≤ 1 ∧
      fetch (pageUrl (ensureTrailingSlash url) (1 + i)) = .ok h (PL.getD i []))
    (hred : ∃ h ls, 1 < h ∧
      fetch (pageUrl (ensureTrailingSlash url) (1 + PL.length)) = .ok h ls)
    (hfuel : PL.length < fuel) :
    getProductsLinks fetch fuel url = some PL.flatten := by
  unfold getProductsLinks
  have := getProductsLinksAux_pages fetch (ensureTrailingSlash url) PL 1 fuel [] hok hred hfuel
  simpa using this

/-- C2 witness: a concrete two-page listing with a redirect on page 3;
the junk links carried by the redirect response are not collected. -/
theorem pagination_stops_only_on_redirect_wit :
    getProductsLinks pagesTwoThenRedirect 9 "w" = some ["x", "y"] :=
  pagination_stops_only_on_redirect pagesTwoThenRedirect "w" [["x"], ["y"]] 9
    (by
      intro i hi
      simp only [List.length_cons, List.length_nil] at hi
      interval_cases i
      · exact ⟨1, by omega, by decide⟩
      · exact ⟨0, by omega, by decide⟩)
    ⟨5, ["z"], by omega, by decide⟩
    (by decide)

/-- C5: the transient-error retry at line 240 recurses with the local
`url` variable, which at that point holds the page URL - so the retry
re-derives its URL pattern from `v/page_2`, restarts at page 1 of the
wrong pattern with an empty accumulator, and the link from page 1 is
lost: the run with the injected error returns no links while the
failure-free run returns the page 1 link. -/
theorem pagination_retry_loses_accumulated_links :
    getProductsLinks pagesWithNetErrorAtTwo 10 "v" = some []
    ∧ getProductsLinks pagesNoError 10 "v" = some ["a"] := by
  constructor
  · decide
  · decide

lemma iterResults_eq (maxWorkers : Option Nat) (fetch : String → Product)
    (links : List String) : iterResults maxWorkers fetch links = links.map fetch := by
  unfold iterResults fetchProductsWithSingleRequests fetchProductsWithThreadPoolExecutor
  split <;> rfl

lemma runCollect_ne_valueError (fetch : String → Product) (maxWorkers : Option Nat)
    (dir : String) (links : List String) (products : List Product)
    (failAfter : Option Nat) :
    runCollect fetch maxWorkers dir links products failAfter ≠ .valueError := by
  unfold runCollect
  match failAfter with
  | none => simp
  | some k =>
    dsimp only
    split <;> simp

lemma handled_of_take (fetch : String → Product) (L : List String) (k : Nat)
    (hfetch : ∀ u, (fetch u).original_url = u) :
    (((L.map fetch).take k).map Product.original_url) = L.take k := by
  rw [← List.map_take, List.map_map]
  have h1 : ∀ a ∈ L.take k, (Product.original_url ∘ fetch) a = id a := fun a _ => hfetch a
  rw [List.map_congr_left h1, List.map_id]

lemma filter_not_take_nodup (L : List String) (k : Nat) (hnd : L.Nodup) :
    L.filter (fun l => decide (l ∉ L.take k)) = L.drop k := by
  have hsplit := List.take_append_drop k L
  have hnd2 : (L.take k ++ L.drop k).Nodup := by rwa [hsplit]
  have hdisj := (List.nodup_append.mp hnd2).2.2
  have h1 : List.filter (fun l => decide (l ∉ L.take k)) (L.take k) = [] := by
    rw [List.filter_eq_nil_iff]
    intro a ha
    simp [ha]
  have h2 : List.filter (fun l => decide (l ∉ L.take k)) (L.drop k) = L.drop k := by
    rw [List.filter_eq_self]
    intro a ha
    have hna : a ∉ L.take k := fun hmem => hdisj hmem ha
    simp [hna]
  have hcopy : List.filter (fun l => decide (l ∉ L.take k)) L
      = List.filter (fun l => decide (l ∉ L.take k)) (L.take k ++ L.drop k) := by
    rw [hsplit]
  rw [hcopy, List.filter_append, h1, h2, List.nil_append]

lemma pySetDiff_take (L : List String) (k : Nat) (hnd : L.Nodup) :
    pySetDiff L (L.take k) = L.drop k := by
  unfold pySetDiff
  rw [List.dedup_eq_self.mpr hnd]
  exact filter_not_take_nodup L k hnd

lemma mem_drop_iff_nodup (L : List String) (k : Nat) (hnd : L.Nodup) (l : String) :
    l ∈ L.drop k ↔ (l ∈ L ∧ l ∉ L.take k) := by
  have hsplit := List.take_append_drop k L
  have hnd2 : (L.take k ++ L.drop k).Nodup := by rwa [hsplit]
  have hdisj := (List.nodup_append.mp hnd2).2.2
  constructor
  · intro h
    refine ⟨?_, ?_⟩
    · rw [← hsplit]
      exact List.mem_append_right _ h
    · exact fun hmem => hdisj hmem h
  · rintro ⟨h1, h2⟩
    rw [← hsplit] at h1
    rcases List.mem_append.mp h1 with h3 | h3
    · exact absurd h3 h2
    · exact h3

lemma dumpStep_fresh_fail (crawl : String → List String) (fetch : String → Product)
    (prepareDir : String → Option String → String) (url : String)
    (dirName : Option String) (maxWorkers : Option Nat) (k : Nat)
    (hk : k < (crawl url).length) :
    dumpStep crawl fetch prepareDir url dirName maxWorkers none none none (some k)
      = .broken (prepareDir url dirName)
          (pySetDiff (crawl url) ((((crawl url).map fetch).take k).map Product.original_url))
          (((crawl url).map fetch).take k) := by
  unfold dumpStep runCollect
  simp [iterResults_eq, hk]

lemma dumpStep_no_fail_success (crawl : String → List String) (fetch : String → Product)
    (prepareDir : String → Option String → String) (url : String)
    (dirName : Option String) (maxWorkers : Option Nat)
    (dirBroken : Option String) (leftLinks : Option (List String))
    (prepared : Option (List Product))
    (hnv : dumpStep crawl fetch prepareDir url dirName maxWorkers dirBroken leftLinks prepared none
      ≠ .valueError) :
    ∃ d ps, dumpStep crawl fetch prepareDir url dirName maxWorkers dirBroken leftLinks prepared none
      = .success d ps := by
  unfold dumpStep at hnv ⊢
  by_cases h : (prepared.getD []).isEmpty
  · simp only [h, if_true, runCollect, iterResults_eq]
    exact ⟨_, _, rfl⟩
  · simp only [h, if_false] at hnv ⊢
    match dirBroken, leftLinks with
    | some d, some ll =>
      dsimp only at hnv ⊢
      by_cases h2 : ll.isEmpty
      · simp [h2] at hnv
      · simp only [h2, if_false, runCollect, iterResults_eq]
        exact ⟨_, _, rfl⟩
    | some d, none => simp at hnv
    | none, _ => simp at hnv

/-- C7 counterexample: with a non-empty prepared record list, a
supplied dump dir and a supplied-but-empty left-link collection -
nothing missing - the invocation still raises `ValueError`, because the
source tests Python truthiness, not presence. -/
theorem contract_error_empty_links_cex :
    dumpStep (fun _ => []) (fun u => ⟨u, "t"⟩) (fun u _ => u) "url" none none
        (some "d") (some []) (some [⟨"a", "t"⟩]) none = .valueError
    ∧ (some ([] : List String)) ≠ (none : Option (List String)) := by
  constructor
  · decide
  · decide

lemma dumpStep_valueError_iff (crawl : String → List String) (fetch : String → Product)
    (prepareDir : String → Option String → String) (url : String)
    (dirName : Option String) (maxWorkers : Option Nat)
    (dirBroken : Option String) (leftLinks : Option (List String))
    (prepared : Option (List Product)) (failAfter : Option Nat) :
    dumpStep crawl fetch prepareDir url dirName maxWorkers dirBroken leftLinks prepared failAfter
        = .valueError
      ↔ (prepared.getD [] ≠ []
          ∧ (dirBroken = none ∨ leftLinks = none ∨ leftLinks = some [])) := by
  unfold dumpStep
  match prepared with
  | none => simp [runCollect_ne_valueError]
  | some [] => simp [runCollect_ne_valueError]
  | some (p :: ps) =>
    simp only [Option.getD_some, List.isEmpty_cons, Bool.false_eq_true, if_false]
    match dirBroken, leftLinks with
    | some d, some [] => simp
    | some d, some (x :: xs) => simp [runCollect_ne_valueError]
    | some d, none => simp
    | none, some ll => simp
    | none, none => simp

/-- C7 amended: a `dump_products` invocation raises `ValueError` - and
does so before any crawling or fetching, whatever failure schedule
follows - if and only if its prepared-products argument is truthy
(supplied and non-empty) while the dump dir is missing or the left-link
collection is missing or empty; and whenever that condition holds the
whole recursive chain surfaces the `ValueError` unretried. -/
theorem contract_error_iff (crawl : String → List String) (fetch : String → Product)
    (prepareDir : String → Option String → String) (url : String)
    (dirName : Option String) (maxWorkers : Option Nat)
    (dirBroken : Option String) (leftLinks : Option (List String))
    (prepared : Option (List Product)) (failAfter : Option Nat) :
    (dumpStep crawl fetch prepareDir url dirName maxWorkers dirBroken leftLinks prepared failAfter
        = .valueError
      ↔ (prepared.getD [] ≠ []
          ∧ (dirBroken = none ∨ leftLinks = none ∨ leftLinks = some [])))
    ∧ ((prepared.getD [] ≠ []
          ∧ (dirBroken = none ∨ leftLinks = none ∨ leftLinks = some []))
        → ∀ schedule, dumpProducts crawl fetch prepareDir url dirName maxWorkers
            dirBroken leftLinks prepared schedule = .valueError) := by
  refine ⟨dumpStep_valueError_iff crawl fetch prepareDir url dirName maxWorkers dirBroken
    leftLinks prepared failAfter, ?_⟩
  intro hcond schedule
  cases schedule with
  | nil =>
    unfold dumpProducts
    rw [(dumpStep_valueError_iff crawl fetch prepareDir url dirName maxWorkers dirBroken
      leftLinks prepared none).mpr hcond]
  | cons f rest =>
    unfold dumpProducts
    rw [(dumpStep_valueError_iff crawl fetch prepareDir url dirName maxWorkers dirBroken
      leftLinks prepared f).mpr hcond]

/-- C7 witness: a concrete chain invoked with non-empty prepared
records and no dump dir surfaces the `ValueError` for the whole
schedule. -/
theorem contract_error_iff_wit :
    dumpProducts (fun _ => []) (fun u => ⟨u, "t"⟩) (fun u _ => u) "url" none none
      none (some ["l"]) (some [⟨"a", "t"⟩]) [some 0, none] = .valueError :=
  (contract_error_iff (fun _ => []) (fun u => ⟨u, "t"⟩) (fun u _ => u) "url" none none
    none (some ["l"]) (some [⟨"a", "t"⟩]) none).2
    ⟨by decide, Or.inl rfl⟩ [some 0, none]

lemma dumpStep_fresh_none (crawl : String → List String) (fetch : String → Product)
    (prepareDir : String → Option String → String) (url : String)
    (dirName : Option String) (maxWorkers : Option Nat) :
    dumpStep crawl fetch prepareDir url dirName maxWorkers none none none none
      = .success (prepareDir url dirName) ((crawl url).map fetch) := by
  unfold dumpStep runCollect
  simp [iterResults_eq]

lemma dumpStep_empty_prepared_none (crawl : String → List String) (fetch : String → Product)
    (prepareDir : String → Option String → String) (url : String)
    (dirName : Option String) (maxWorkers : Option Nat) (d : String) (ll : List String) :
    dumpStep crawl fetch prepareDir url dirName maxWorkers (some d) (some ll) (some []) none
      = .success (prepareDir url dirName) ((crawl url).map fetch) := by
  unfold dumpStep runCollect
  simp [iterResults_eq]

lemma dumpStep_resume_none (crawl : String → List String) (fetch : String → Product)
    (prepareDir : String → Option String → String) (url : String)
    (dirName : Option String) (maxWorkers : Option Nat) (d : String)
    (ll : List String) (ps : List Product) (hll : ll ≠ []) (hps : ps ≠ []) :
    dumpStep crawl fetch prepareDir url dirName maxWorkers (some d) (some ll) (some ps) none
      = .success d (ps ++ ll.map fetch) := by
  unfold dumpStep runCollect
  match ps, hps with
  | p :: ps2, _ =>
    match ll, hll with
    | x :: xs, _ =>
      simp [iterResults_eq]

lemma dumpProducts_cons (crawl : String → List String) (fetch : String → Product)
    (prepareDir : String → Option String → String) (url : String)
    (dirName : Option String) (maxWorkers : Option Nat)
    (dirBroken : Option String) (leftLinks : Option (List String))
    (prepared : Option (List Product)) (f : Option Nat) (rest : List (Option Nat)) :
    dumpProducts crawl fetch prepareDir url dirName maxWorkers dirBroken leftLinks prepared
        (f :: rest)
      = match dumpStep crawl fetch prepareDir url dirName maxWorkers dirBroken leftLinks
          prepared f with
        | .valueError => .valueError
        | .success d ps => .success d ps
        | .broken d ll ps =>
          dumpProducts crawl fetch prepareDir url none maxWorkers (some d) (some ll) (some ps)
            rest := rfl

lemma dumpProducts_nil_fresh (crawl : String → List String) (fetch : String → Product)
    (prepareDir : String → Option String → String) (url : String)
    (dirName : Option String) (maxWorkers : Option Nat) :
    dumpProducts crawl fetch prepareDir url dirName maxWorkers none none none []
      = .success (prepareDir url dirName) ((crawl url).map fetch) := by
  unfold dumpProducts
  rw [dumpStep_fresh_none]

lemma map_url_of_fetch (fetch : String → Product) (L : List String)
    (hfetch : ∀ u, (fetch u).original_url = u) :
    (L.map fetch).map Product.original_url = L := by
  rw [List.map_map]
  have h1 : ∀ a ∈ L, (Product.original_url ∘ fetch) a = id a := fun a _ => hfetch a
  rw [List.map_congr_left h1, List.map_id]

lemma pySetDiff_nil_handled (L : List String) : pySetDiff L [] = L.dedup := by
  unfold pySetDiff
  rw [List.filter_eq_self]
  intro a _
  simp

/-- C3: with no failures injected, `dump_products` over a non-empty
crawled URL list behaves identically in the sequential mode
(max workers 1) and the thread-pool mode (max workers greater than 1):
both succeed with exactly one record per URL in link order, the record
URLs are exactly the input URLs, and the two record lists are equal. -/
theorem dispatch_seq_pool_equiv (crawl : String → List String) (fetch : String → Product)
    (prepareDir : String → Option String → String) (url : String) (dirName : Option String)
    (n : Nat) (hn : 1 < n) (hfetch : ∀ u, (fetch u).original_url = u)
    (hne : crawl url ≠ []) :
    dumpProducts crawl fetch prepareDir url dirName (some 1) none none none []
      = .success (prepareDir url dirName) ((crawl url).map fetch)
    ∧ dumpProducts crawl fetch prepareDir url dirName (some n) none none none []
      = .success (prepareDir url dirName) ((crawl url).map fetch)
    ∧ ((crawl url).map fetch).length = (crawl url).length
    ∧ ((crawl url).map fetch).map Product.original_url = crawl url :=
  ⟨dumpProducts_nil_fresh crawl fetch prepareDir url dirName (some 1),
   dumpProducts_nil_fresh crawl fetch prepareDir url dirName (some n),
   List.length_map _ _,
   map_url_of_fetch fetch (crawl url) hfetch⟩

/-- C3 witness: a concrete two-URL listing dispatched with max workers
1 and 2. -/
theorem dispatch_seq_pool_equiv_wit :
    dumpProducts (fun _ => ["p", "q"]) (fun u => ⟨u, "t"⟩) (fun _ _ => "dir") "lurl" none
        (some 1) none none none []
      = .success "dir" [⟨"p", "t"⟩, ⟨"q", "t"⟩]
    ∧ dumpProducts (fun _ => ["p", "q"]) (fun u => ⟨u, "t"⟩) (fun _ _ => "dir") "lurl" none
        (some 2) none none none []
      = .success "dir" [⟨"p", "t"⟩, ⟨"q", "t"⟩]
    ∧ ([⟨"p", "t"⟩, ⟨"q", "t"⟩] : List Product).length = (["p", "q"] : List String).length
    ∧ ([⟨"p", "t"⟩, ⟨"q", "t"⟩] : List Product).map Product.original_url = ["p", "q"] :=
  dispatch_seq_pool_equiv (fun _ => ["p", "q"]) (fun u => ⟨u, "t"⟩) (fun _ _ => "dir")
    "lurl" none 2 (by omega) (fun _ => rfl) (by decide)

/-- C1: a fresh `dump_products` over the crawled URL list that suffers
a batch-fatal error after exactly k collected products hands the retry
invocation the set difference of the links minus the URLs of the k
collected records, those k records, and the dump directory of the
broken invocation; and the chain that retries once and then succeeds
completes with exactly one record per URL (each URL appearing exactly
once). -/
theorem resumption_correct (crawl : String → List String) (fetch : String → Product)
    (prepareDir : String → Option String → String) (url : String)
    (dirName : Option String) (maxWorkers : Option Nat) (k : Nat)
    (hnd : (crawl url).Nodup) (hfetch : ∀ u, (fetch u).original_url = u)
    (hk : k < (crawl url).length) :
    (∃ rest, dumpStep crawl fetch prepareDir url dirName maxWorkers none none none (some k)
        = .broken (prepareDir url dirName) rest (((crawl url).take k).map fetch)
      ∧ ∀ l, l ∈ rest ↔ (l ∈ crawl url
          ∧ l ∉ ((((crawl url).take k).map fetch).map Product.original_url)))
    ∧ ∃ d, dumpProducts crawl fetch prepareDir url dirName maxWorkers none none none
        [some k, none] = .success d ((crawl url).map fetch)
      ∧ ((crawl url).map fetch).map Product.original_url = crawl url
      ∧ ((crawl url).map fetch).length = (crawl url).length := by
  have hhandled := handled_of_take fetch (crawl url) k hfetch
  have hstep := dumpStep_fresh_fail crawl fetch prepareDir url dirName maxWorkers k hk
  rw [hhandled, pySetDiff_take (crawl url) k hnd] at hstep
  have hmapt : (((crawl url).take k).map fetch) = ((crawl url).map fetch).take k :=
    List.map_take fetch (crawl url) k
  constructor
  · refine ⟨(crawl url).drop k, ?_, ?_⟩
    · rw [hmapt]
      exact hstep
    · intro l
      rw [hmapt, hhandled]
      exact mem_drop_iff_nodup (crawl url) k hnd l
  · cases k with
    | zero =>
      refine ⟨prepareDir url none, ?_, map_url_of_fetch fetch (crawl url) hfetch,
        List.length_map _ _⟩
      rw [dumpProducts_cons, hstep]
      simp only [List.take_zero, List.map_nil, List.drop_zero]
      rw [dumpProducts_cons, dumpStep_empty_prepared_none]
    | succ k2 =>
      refine ⟨prepareDir url dirName, ?_, map_url_of_fetch fetch (crawl url) hfetch,
        List.length_map _ _⟩
      rw [dumpProducts_cons, hstep]
      dsimp only
      have hllne : (crawl url).drop (k2 + 1) ≠ [] := by
        have : ((crawl url).drop (k2 + 1)).length = (crawl url).length - (k2 + 1) :=
          List.length_drop _ _
        intro hcon
        rw [hcon] at this
        simp at this
        omega
      have hpsne : ((crawl url).map fetch).take (k2 + 1) ≠ [] := by
        have h0 : 0 < (crawl url).length := by omega
        have : (((crawl url).map fetch).take (k2 + 1)).length
            = min (k2 + 1) ((crawl url).map fetch).length := List.length_take _ _
        intro hcon
        rw [hcon] at this
        simp only [List.length_nil, List.length_map] at this
        omega
      rw [dumpProducts_cons, dumpStep_resume_none crawl fetch prepareDir url none maxWorkers
        (prepareDir url dirName) ((crawl url).drop (k2 + 1))
        (((crawl url).map fetch).take (k2 + 1)) hllne hpsne]
      dsimp only
      rw [← hmapt, ← List.map_append, List.take_append_drop]

/-- C1 witness: a three-URL listing broken after one collected record;
the handed-back remainder is characterized and the retried chain
completes all three records. -/
theorem resumption_correct_wit :
    ((∃ rest, dumpStep (fun _ => ["p", "q", "r"]) (fun u => ⟨u, "t"⟩) (fun _ _ => "dir")
        "lurl" none (some 4) none none none (some 1)
        = .broken "dir" rest [⟨"p", "t"⟩]
      ∧ ∀ l, l ∈ rest ↔ (l ∈ ["p", "q", "r"]
          ∧ l ∉ (([⟨"p", "t"⟩] : List Product).map Product.original_url)))
    ∧ ∃ d, dumpProducts (fun _ => ["p", "q", "r"]) (fun u => ⟨u, "t"⟩) (fun _ _ => "dir")
        "lurl" none (some 4) none none none [some 1, none]
        = .success d [⟨"p", "t"⟩, ⟨"q", "t"⟩, ⟨"r", "t"⟩]
      ∧ ([⟨"p", "t"⟩, ⟨"q", "t"⟩, ⟨"r", "t"⟩] : List Product).map Product.original_url
          = ["p", "q", "r"]
      ∧ ([⟨"p", "t"⟩, ⟨"q", "t"⟩, ⟨"r", "t"⟩] : List Product).length
          = (["p", "q", "r"] : List String).length) :=
  resumption_correct (fun _ => ["p", "q", "r"]) (fun u => ⟨u, "t"⟩) (fun _ _ => "dir")
    "lurl" none (some 4) 1 (by decide) (fun _ => rfl) (by decide)

/-- C10: a batch-fatal failure before any product completes hands back
the snapshot with an empty prepared-record list; a retry invocation
whose prepared list is empty is indistinguishable from a fresh
invocation - it ignores the supplied dump dir and left links, re-derives
the directory from the url (the dir-name argument having been dropped by
the recursive call) and re-crawls the listing; so the whole chain with a
failure at k = 0 ends up re-deriving and re-crawling instead of
dispatching the captured snapshot. -/
theorem zero_progress_resumption_gap (crawl : String → List String) (fetch : String → Product)
    (prepareDir : String → Option String → String) (url : String)
    (dirName : Option String) (maxWorkers : Option Nat) (d : String)
    (ll : List String) (f : Option Nat) (hne : crawl url ≠ []) :
    dumpStep crawl fetch prepareDir url dirName maxWorkers none none none (some 0)
      = .broken (prepareDir url dirName) ((crawl url).dedup) []
    ∧ dumpStep crawl fetch prepareDir url dirName maxWorkers (some d) (some ll) (some []) f
      = dumpStep crawl fetch prepareDir url dirName maxWorkers none none none f
    ∧ dumpProducts crawl fetch prepareDir url dirName maxWorkers none none none [some 0, none]
      = .success (prepareDir url none) ((crawl url).map fetch) := by
  have hk : 0 < (crawl url).length := List.length_pos.mpr hne
  have hstep := dumpStep_fresh_fail crawl fetch prepareDir url dirName maxWorkers 0 hk
  rw [List.take_zero, List.map_nil, pySetDiff_nil_handled] at hstep
  refine ⟨hstep, ?_, ?_⟩
  · rfl
  · rw [dumpProducts_cons, hstep]
    dsimp only
    rw [dumpProducts_cons, dumpStep_empty_prepared_none]

/-- C10 witness: a concrete one-URL listing failing at k = 0 with a
concrete discarded snapshot. -/
theorem zero_progress_resumption_gap_wit :
    dumpStep (fun _ => ["p"]) (fun u => ⟨u, "t"⟩) (fun _ d => match d with
        | some s => s
        | none => "derived") "lurl" (some "given") none none none none (some 0)
      = .broken "given" ["p"] []
    ∧ dumpStep (fun _ => ["p"]) (fun u => ⟨u, "t"⟩) (fun _ d => match d with
        | some s => s
        | none => "derived") "lurl" (some "given") none (some "dd") (some ["z"]) (some [])
        none
      = dumpStep (fun _ => ["p"]) (fun u => ⟨u, "t"⟩) (fun _ d => match d with
        | some s => s
        | none => "derived") "lurl" (some "given") none none none none none
    ∧ dumpProducts (fun _ => ["p"]) (fun u => ⟨u, "t"⟩) (fun _ d => match d with
        | some s => s
        | none => "derived") "lurl" (some "given") none none none none [some 0, none]
      = .success "derived" [⟨"p", "t"⟩] :=
  zero_progress_resumption_gap (fun _ => ["p"]) (fun u => ⟨u, "t"⟩) (fun _ d => match d with
      | some s => s
      | none => "derived") "lurl" (some "given") none "dd" ["z"] none (by decide)

lemma optStrToJVal_inj : Function.Injective optStrToJVal := by
  intro a b h
  cases a <;> cases b <;> simp [optStrToJVal] at h ⊢
  exact h

/-- C6 counterexample: the persisted record object has an eleventh key,
`user_content_images`, which the claimed ten-key schema omits. -/
theorem record_schema_extra_key_cex :
    ((getData envTrivial parserTrivial).map Prod.fst)
      = ["original_url", "title", "price", "image", "extra_images", "user_content_images",
         "all_images", "user_content_html", "user_content_text", "characteristics",
         "specification_links"]
    ∧ "user_content_images" ∉ (["original_url", "title", "price", "image", "extra_images",
         "all_images", "user_content_html", "user_content_text", "characteristics",
         "specification_links"] : List String) := by
  constructor
  · rfl
  · decide

/-- C6 amended: for every product the persisted JSON object has exactly
the keys original_url, title, price, image, extra_images,
user_content_images, all_images, user_content_html, user_content_text,
characteristics and specification_links, in that order; and whenever
the all-images computation succeeds, the stored all_images array is
deduplicated. -/
theorem record_schema_amended (env : ExtractorEnv) (p : ProductParserS) :
    ((getData env p).map Prod.fst)
      = ["original_url", "title", "price", "image", "extra_images", "user_content_images",
         "all_images", "user_content_html", "user_content_text", "characteristics",
         "specification_links"]
    ∧ ∀ ls, allImagesLinksA p = some ls →
        (ls.map optStrToJVal).Nodup
        ∧ List.lookup "all_images" (getData env p) = some (JVal.arr (ls.map optStrToJVal)) := by
  constructor
  · rfl
  · intro ls hls
    have hdedup : ∃ base : List (Option String), ls = base.dedup := by
      unfold allImagesLinksA at hls
      rcases h1 : imageLinkA p with _ | img <;> rw [h1] at hls
      · simp at hls
      · rcases h2 : extraImagesLinksA p with _ | ex <;> rw [h2] at hls
        · simp at hls
        · rcases h3 : ucImagesLinksA p with _ | uc <;> rw [h3] at hls
          · simp at hls
          · simp only [Option.some.injEq] at hls
            exact ⟨_, hls.symm⟩
    constructor
    · obtain ⟨base, hbase⟩ := hdedup
      subst hbase
      exact (List.nodup_dedup base).map optStrToJVal_inj
    · simp [getData, List.lookup, hls]

/-- C6 witness: a concrete document with a duplicated image URL across
the main and extra photos; the stored array keeps one copy of each. -/
theorem record_schema_amended_wit :
    (([some "e1.jpg", some "m.jpg", some "u1.jpg"].map optStrToJVal)).Nodup
    ∧ List.lookup "all_images" (getData envTrivial parserImages)
      = some (JVal.arr ([some "e1.jpg", some "m.jpg", some "u1.jpg"].map optStrToJVal)) :=
  (record_schema_amended envTrivial parserImages).2
    [some "e1.jpg", some "m.jpg", some "u1.jpg"] (by decide)

/-- C9: `ProductParser` construction and `get_data` are pure functions
of the URL and the markup - constructing the parser twice over the same
pair and extracting from each yields the same parser state and
identical data mappings. -/
theorem extraction_idempotent (env : ExtractorEnv) (url : String) (doc : HNode)
    (p q : ProductParserS) (hp : mkProductParser url doc = some p)
    (hq : mkProductParser url doc = some q) :
    getData env p = getData env q ∧ p = q := by
  have h := hp.symm.trans hq
  injection h with h2
  exact ⟨by rw [h2], h2⟩

/-- C9 witness: two constructions over a concrete document. -/
theorem extraction_idempotent_wit :
    getData envTrivial parserFromSection = getData envTrivial parserFromSection
    ∧ parserFromSection = parserFromSection :=
  extraction_idempotent envTrivial "u" docWithSection parserFromSection parserFromSection
    (by rfl) (by rfl)

end EPParser
